import Mathlib

/-!
# Client-side session and transport layer of the Chemical Equipment Visualizer

A shallow embedding of `frontend-web/src/api.js` (transport client, report
downloader) and of the orchestration code of `frontend-web/src/App.jsx`
(the `App` component's state and its handlers), followed by theorems about
them.

Conventions of the embedding.

* A parsed JSON body is a `JsVal`. A number is kept by the two things the
  program observes of it: whether it is zero and its string form.
* A string is a Lean `String`, a sequence of Unicode scalar values: the
  well-formed JavaScript strings. A string with a lone surrogate, on which
  `encodeURIComponent` throws `URIError`, is excluded by this type.
* An `await` that can reject is modelled by passing the outcome of the
  awaited call as an `Except JsError _` argument of the handler.
* A payload that may be `null` (what `api` returns for an empty or an
  unparseable body) has type `Nullable _`, with `none` for `null`.
* React state is a record `AppState`; a `setX(v)` call is a field update.
* A handler is run to completion unless stated otherwise. A `Session`
  adds the detail fetch pairs in flight to the state; `Session.click` runs
  `handleSelect` and then the `useEffect` of lines 239 to 241, and
  `selectTwice` lets the pairs issued by two clicks settle in any order.
-/

namespace Visualizer

/-! ## JavaScript values -/

/-- A JavaScript number, by what the program observes of it: `isZero`
tells whether it is `0` or `-0` (the falsy numbers that `JSON.parse` can
produce) and `text` is its string form (`Number::toString`, such as `42`,
`3.5` or `1e+21`). -/
structure JsNum where
  isZero : Bool
  text : String
deriving DecidableEq, Repr

/-- The number `n`, for a natural number below `10^21`, whose string form
is the decimal one. -/
def JsNum.ofNat (n : Nat) : JsNum :=
  { isZero := n == 0, text := toString n }

/-- JavaScript values that `JSON.parse` can produce, plus `undefined`
(the value of a missing property). -/
inductive JsVal where
  | undefined
  | null
  | bool (b : Bool)
  | num (n : JsNum)
  | str (s : String)
  | arr (items : List JsVal)
  | obj (fields : List (String × JsVal))

namespace JsVal

/-- JavaScript truthiness (`ToBoolean`): what `!v` and `v || w` test. -/
def truthy : JsVal → Bool
  | undefined => false
  | null => false
  | bool b => b
  | num n => !n.isZero
  | str s => s != ""
  | arr _ => true
  | obj _ => true

/-- The operator `a || b`: `a` when `a` is truthy, else `b`. -/
def or (a b : JsVal) : JsVal := if a.truthy then a else b

/-- Optional property read `v?.key`: the property of an object (whose
keys are distinct after parsing), and
`undefined` for `null`, `undefined`, a missing key, and for the values
(strings, numbers, booleans, arrays) that carry no own property of the
names read by this program (`error`, `detail`). -/
def optField (v : JsVal) (key : String) : JsVal :=
  match v with
  | obj fields =>
    match fields.find? (fun kv => kv.1 == key) with
    | some kv => kv.2
    | none => undefined
  | _ => undefined

mutual
/-- String conversion (`ToString`), as applied by `new Error(v)` to its
argument; `none` when the conversion throws a `TypeError`. A parsed object
is converted by the `toString` it finds: the inherited
`Object.prototype.toString`, which yields `[object Object]`, unless the
object has an own `toString` key, whose value (parsed, so never a function)
is not callable, and then neither `toString` nor `valueOf` yields a
primitive and the conversion throws. An array is converted by `join`. -/
def toStr : JsVal → Option String
  | undefined => some "undefined"
  | null => some "null"
  | bool b => some (if b then "true" else "false")
  | num n => some n.text
  | str s => some s
  | arr items => joinItems items
  | obj fields =>
    if (fields.find? (fun kv => kv.1 == "toString")).isSome then none
    else some "[object Object]"
/-- The comma-separated join of the elements of an array
(`Array.prototype.join`): `null` and `undefined` elements contribute the
empty string, every other element its string conversion; `none` when the
conversion of an element throws. -/
def joinItems : List JsVal → Option String
  | [] => some ""
  | x :: rest =>
    match (match x with
      | undefined => some ""
      | null => some ""
      | v => toStr v) with
    | none => none
    | some h =>
      if rest.isEmpty then some h
      else
        match joinItems rest with
        | none => none
        | some t => some (h ++ "," ++ t)
end

end JsVal

/-- A thrown JavaScript `Error`: its `message`, and the `status` and `data`
properties that `api` attaches (absent, i.e. `none` / `undefined`, on every
other error). -/
structure JsError where
  message : String
  status : Option Nat
  data : JsVal

/-- The `TypeError` raised when the string conversion of an object finds
no primitive value. The text is the one of V8. -/
def conversionError : JsError :=
  { message := "Cannot convert object to primitive value"
    status := none
    data := JsVal.undefined }

/-- A payload that may be `null`. -/
abbrev Nullable (α : Type) := Option α

/-- The `TypeError` raised by reading property `prop` of `null`
(`h.length`, `d.data`). The text is the one of V8; no handler depends on it
beyond its being non-empty. -/
def nullReadError (prop : String) : JsError :=
  { message := "Cannot read properties of null (reading '" ++ prop ++ "')"
    status := none
    data := JsVal.undefined }

/-! ## `api.js`: transport client -/

/-- Session credentials `{ username, password }`, two well-formed
strings. -/
structure Credentials where
  username : String
  password : String
deriving DecidableEq, Repr

/-- The UTF-8 bytes of one character, the byte string that
`unescape(encodeURIComponent(c))` yields. -/
def utf8EncodeChar (c : Char) : List Nat :=
  let v := c.toNat
  if v < 0x80 then [v]
  else if v < 0x800 then [0xC0 + v / 64, 0x80 + v % 64]
  else if v < 0x10000 then [0xE0 + v / 4096, 0x80 + v / 64 % 64, 0x80 + v % 64]
  else [0xF0 + v / 262144, 0x80 + v / 4096 % 64, 0x80 + v / 64 % 64, 0x80 + v % 64]

/-- The UTF-8 bytes of a string: `unescape(encodeURIComponent(s))` for a
well-formed string `s`, as a list of byte values. -/
def utf8Bytes (s : String) : List Nat :=
  (s.toList.map utf8EncodeChar).flatten

/-- The 64 digits of base64. -/
def b64Digits : List Char :=
  "ABCDEFGHIJKLMNOPQRSTUVWXYZabcdefghijklmnopqrstuvwxyz0123456789+/".toList

/-- The base64 digit of a 6-bit value. -/
def b64Digit (n : Nat) : Char := b64Digits.getD n 'A'

/-- Base64 of a byte sequence, three bytes to four digits, padded with `=`. -/
def base64Encode : List Nat → List Char
  | [] => []
  | [a] => [b64Digit (a / 4), b64Digit (a % 4 * 16), '=', '=']
  | [a, b] => [b64Digit (a / 4), b64Digit (a % 4 * 16 + b / 16), b64Digit (b % 16 * 4), '=']
  | a :: b :: c :: rest =>
    b64Digit (a / 4) :: b64Digit (a % 4 * 16 + b / 16) ::
      b64Digit (b % 16 * 4 + c / 64) :: b64Digit (c % 64) :: base64Encode rest

/-- The builtin `btoa` on a byte string. -/
def btoa (bytes : List Nat) : String := String.mk (base64Encode bytes)

/-- Source `b64(s)`: `btoa(unescape(encodeURIComponent(s)))`, for a
well-formed string `s`. (On a string with a lone surrogate, which the type
`String` excludes, `encodeURIComponent` throws `URIError`.) -/
def b64 (s : String) : String := btoa (utf8Bytes s)

/-- Source `getAuthHeader(credentials)`, for credentials that are absent
or made of well-formed strings: the header object, as a list of name/value
pairs. `!credentials?.username || !credentials?.password` holds when the
credentials are absent or when either string is empty. -/
def getAuthHeader (credentials : Option Credentials) : List (String × String) :=
  match credentials with
  | none => []
  | some c =>
    if c.username = "" ∨ c.password = "" then []
    else [("Authorization", "Basic " ++ b64 (c.username ++ ":" ++ c.password))]

/-- The part of a `fetch` response that the client reads. -/
structure Response where
  status : Nat
  statusText : String
  text : String
deriving DecidableEq, Repr

/-- The `ok` flag of a response: status in the range 200 to 299. -/
def Response.ok (res : Response) : Bool :=
  decide (200 ≤ res.status) && decide (res.status ≤ 299)

/-- Lines 31 to 37 of `api.js`: `text ? JSON.parse(text) : null` under a
`try` whose `catch` yields `null`. The builtin `JSON.parse` is the parameter
`jsonParse`, with `none` for a thrown `SyntaxError`. -/
def parseBody (jsonParse : String → Option JsVal) (text : String) : JsVal :=
  if text = "" then JsVal.null
  else
    match jsonParse text with
    | some v => v
    | none => JsVal.null

/-- The request headers that `api` builds (lines 14 to 28). -/
def apiHeaders (credentials : Option Credentials) (formData : Bool) : List (String × String) :=
  if formData then getAuthHeader credentials
  else getAuthHeader credentials ++ [("Content-Type", "application/json")]

/-- Source `api(method, path, opts)` from the point where `fetch` has
delivered the response `res` (lines 31 to 44). `new Error(v)` converts `v`
to a string; when that conversion throws, the `TypeError` leaves `api`
before `err.status` and `err.data` are assigned. -/
def api (jsonParse : String → Option JsVal) (res : Response) : Except JsError JsVal :=
  let data := parseBody jsonParse res.text
  if !res.ok then
    match (JsVal.or
        (JsVal.or (JsVal.or (data.optField "error") (data.optField "detail"))
          (JsVal.str res.statusText))
        (JsVal.str ("HTTP " ++ toString res.status))).toStr with
    | some message => Except.error { message := message, status := some res.status, data := data }
    | none => Except.error conversionError
  else
    Except.ok data

/-! ## `api.js`: report downloader -/

/-- The observable effects of `downloadReport`, in program order. -/
inductive Effect where
  | fetch (url : String) (headers : List (String × String))
  | createObjectURL (handle : Nat)
  | click (href : Nat) (download : String)
  | revokeObjectURL (handle : Nat)
deriving DecidableEq, Repr

/-- One run of `downloadReport`: the effects performed and how the call
ended (`none`: returned, `some e`: raised `e`). -/
structure DownloadRun where
  trace : List Effect
  raised : Option JsError

/-- Source `downloadReport(uploadId, filename, credentials)`. The
environment is given by `apiBase` (the constant `API_BASE`), the response
`res` of the `fetch`, the handle `handle` that `URL.createObjectURL` hands
out, and `saveError`, the error raised by the save step `a.click()` if it
raises. There is no `try`/`finally` in the source: an error raised by
`a.click()` leaves the function at once. -/
def downloadReport (apiBase : String) (uploadId : Nat) (filename : String)
    (credentials : Option Credentials) (res : Response) (handle : Nat)
    (saveError : Option JsError) : DownloadRun :=
  let headers := getAuthHeader credentials
  let t0 := [Effect.fetch (apiBase ++ "/report/" ++ toString uploadId ++ "/pdf/") headers]
  if !res.ok then
    { trace := t0
      raised := some { message := "HTTP " ++ toString res.status, status := none,
                       data := JsVal.undefined } }
  else
    let t1 := t0 ++ [Effect.createObjectURL handle]
    let download :=
      if filename ≠ "" then "report_" ++ filename else "report_" ++ toString uploadId ++ ".pdf"
    let t2 := t1 ++ [Effect.click handle download]
    match saveError with
    | some e => { trace := t2, raised := some e }
    | none => { trace := t2 ++ [Effect.revokeObjectURL handle], raised := none }

/-! ## `App.jsx`: state and handlers of the `App` component -/

/-- A summary as delivered by the backend; the handlers pass it on
unread. -/
abbrev SummarySnapshot := JsVal

/-- A table row as delivered by the backend; the handlers pass it on
unread. -/
abbrev RowRecord := JsVal

/-- A record of the history: `{ id, filename, summary }`. The backend's ids
are numbers; `0` is the falsy id. -/
structure UploadRecord where
  id : Nat
  filename : String
  summary : SummarySnapshot

/-- The payload of `GET /summary/{id}/`, also the object that
`handleUpload` builds: `{ summary, filename }`. -/
structure SummaryPayload where
  summary : SummarySnapshot
  filename : String

/-- The payload of `GET /data/{id}/`: `{ data }`, where `data` may be
missing. -/
structure DataPayload where
  data : Option (List RowRecord)

/-- The ten `useState` cells of `App` (lines 146 to 155). `history` holds
whatever `setHistory` was given, which may be a `null` payload. -/
structure AppState where
  credentials : Option Credentials
  authError : String
  uploading : Bool
  history : Nullable (List UploadRecord)
  selected : Option UploadRecord
  summary : Nullable SummaryPayload
  data : List RowRecord
  loading : Bool
  error : String
  pdfLoading : Bool

/-- The initial values given to `useState`. -/
def AppState.init : AppState :=
  { credentials := none, authError := "", uploading := false, history := some [],
    selected := none, summary := none, data := [], loading := false, error := "",
    pdfLoading := false }

/-- The number of records of the `history` cell (`0` for `null`). -/
def AppState.historyLength (st : AppState) : Nat :=
  match st.history with
  | some h => h.length
  | none => 0

/-- The expression `m || fallback` on strings: `m` unless it is empty. -/
def orElse (m fallback : String) : String := if m ≠ "" then m else fallback

/-- Source `fetchHistory` (lines 157 to 171), given the outcome of
`getHistory(credentials)`. The callback reads `selected` and `credentials`
from its closure; the handler is run here without another intent in
between, so these are the cells of `st`. -/
def fetchHistory (outcome : Except JsError (Nullable (List UploadRecord)))
    (st : AppState) : AppState :=
  match st.credentials with
  | none => st
  | some _ =>
    let st1 := { st with loading := true, error := "" }
    let st2 :=
      match outcome with
      | Except.ok h =>
        let st' := { st1 with history := h }
        match h with
        | none =>
          { st' with error := orElse (nullReadError "length").message "Failed to load history" }
        | some l =>
          match st.selected with
          | none => if l.length ≠ 0 then { st' with selected := l.head? } else st'
          | some s =>
            if (l.find? (fun (x : UploadRecord) => x.id == s.id)).isNone then
              { st' with selected := l.head? }
            else st'
      | Except.error e => { st1 with error := orElse e.message "Failed to load history" }
    { st2 with loading := false }

/-- The result of `Promise.all([p, q])`: both values when both fulfil, else
the error of the promise that rejects first (`secondFirst` tells that `q`
rejects before `p` when both reject). -/
def promiseAll {α β : Type} (p : Except JsError α) (q : Except JsError β)
    (secondFirst : Bool) : Except JsError (α × β) :=
  match p, q with
  | Except.ok a, Except.ok b => Except.ok (a, b)
  | Except.error e, Except.ok _ => Except.error e
  | Except.ok _, Except.error e => Except.error e
  | Except.error e1, Except.error e2 => Except.error (if secondFirst then e2 else e1)

/-- The guard of `fetchSummaryAndData` (line 174) passes: credentials are
present and the id is truthy. -/
def detailIssued (id : Nat) (st : AppState) : Bool :=
  st.credentials.isSome && id != 0

/-- The part of `fetchSummaryAndData` run before its `await` (lines 175 and
176), once the guard has passed. -/
def detailBegin (st : AppState) : AppState :=
  { st with loading := true, error := "" }

/-- The part of `fetchSummaryAndData` run after its `await` (lines 182 to
188), given the outcome of the `Promise.all`. It compares no id and reads
no state. -/
def detailSettle (outcome : Except JsError (Nullable SummaryPayload × Nullable DataPayload))
    (st : AppState) : AppState :=
  let st1 :=
    match outcome with
    | Except.ok (s, d) =>
      let st' := { st with summary := s }
      match d with
      | none => { st' with error := orElse (nullReadError "data").message "Failed to load" }
      | some dp => { st' with data := dp.data.getD [] }
    | Except.error e => { st with error := orElse e.message "Failed to load" }
  { st1 with loading := false }

/-- Source `fetchSummaryAndData(id)` (lines 173 to 189) run without
interleaving, given the outcomes of `getSummary` and `getData`. -/
def fetchSummaryAndData (id : Nat) (s : Except JsError (Nullable SummaryPayload))
    (d : Except JsError (Nullable DataPayload)) (secondFirst : Bool)
    (st : AppState) : AppState :=
  if detailIssued id st then detailSettle (promiseAll s d secondFirst) (detailBegin st)
  else st

/-- Source `handleLogin(creds)` (lines 191 to 201), given the outcome of
the probe `getHistory(creds)`. -/
def handleLogin (creds : Credentials) (outcome : Except JsError (Nullable (List UploadRecord)))
    (st : AppState) : AppState :=
  let st1 := { st with authError := "" }
  match outcome with
  | Except.ok h =>
    let st2 := { st1 with credentials := some creds, history := h }
    match h with
    | none =>
      let e := nullReadError "length"
      { st2 with
        authError := if e.status = some 401 then "Invalid username or password" else e.message }
    | some l => if l.length ≠ 0 then { st2 with selected := l.head? } else st2
  | Except.error e =>
    { st1 with
      authError := if e.status = some 401 then "Invalid username or password" else e.message }

/-- The state updater of line 210:
`prev => [res, ...prev.filter(x => x.id !== res.id)]`. -/
def recordUpload (res : UploadRecord) (prev : List UploadRecord) : List UploadRecord :=
  res :: prev.filter (fun x => x.id != res.id)

/-- Source `handleUpload(e)` (lines 203 to 220), given whether a file was
chosen and the outcomes of `uploadFile` and of `getData`. The upload
response is a record; on a `null` history the updater cannot run and the
cell is left as it is. -/
def handleUpload (file : Option String) (up : Except JsError UploadRecord)
    (d : Except JsError (Nullable DataPayload)) (st : AppState) : AppState :=
  if file.isNone || st.credentials.isNone then st
  else
    let st1 := { st with uploading := true, error := "" }
    let st2 :=
      match up with
      | Except.ok res =>
        let st' := { st1 with
          history := st1.history.map (recordUpload res)
          selected := some res
          summary := some { summary := res.summary, filename := res.filename } }
        match d with
        | Except.ok (some dp) => { st' with data := dp.data.getD [] }
        | Except.ok none =>
          { st' with error := orElse (nullReadError "data").message "Upload failed" }
        | Except.error e => { st' with error := orElse e.message "Upload failed" }
      | Except.error e => { st1 with error := orElse e.message "Upload failed" }
    { st2 with uploading := false }

/-- Source `handleSelect(item)` (lines 222 to 225) up to the `await` inside
`fetchSummaryAndData`. -/
def handleSelect (item : UploadRecord) (st : AppState) : AppState :=
  let st1 := { st with selected := some item }
  if detailIssued item.id st1 then detailBegin st1 else st1

/-- The `onClick` of the sign-out button (line 278):
`() => setCredentials(null)`. -/
def signOut (st : AppState) : AppState :=
  { st with credentials := none }

/-! ## Specification side of the transport client -/

/-- Specification side: the own field `key` of a parsed body, when the body
is an object that has it. -/
def ownField (data : JsVal) (key : String) : Option JsVal :=
  match data with
  | JsVal.obj fields => fields.lookup key
  | _ => none

/-- Specification side: a field that is absent, or whose value is `null`,
`false`, zero or the empty string (or `undefined`). -/
def absentOrEmpty (v : Option JsVal) : Prop :=
  v = none ∨ v = some JsVal.undefined ∨ v = some JsVal.null ∨ v = some (JsVal.bool false) ∨
    v = some (JsVal.str "") ∨ ∃ n : JsNum, v = some (JsVal.num n) ∧ n.isZero = true

/-- Specification side: the error that carries `message`, the status of the
response and the parsed body. -/
def classified (res : Response) (data : JsVal) (message : String) : Except JsError JsVal :=
  Except.error { message := message, status := some res.status, data := data }

/-- Specification side: `v` is the value of the field the message is taken
from: the `error` field, or the `detail` field when `error` is absent or
empty. -/
def messageField (data : JsVal) (v : JsVal) : Prop :=
  ownField data "error" = some v ∨
    (absentOrEmpty (ownField data "error") ∧ ownField data "detail" = some v)

/-! ## Scenarios built from the handlers -/

/-- The outcome of the `Promise.all` of one detail fetch pair. -/
abbrev DetailOutcome := Except JsError (Nullable SummaryPayload × Nullable DataPayload)

/-- The component state together with the detail fetch pairs in flight:
the ids they are keyed by, in the order of issue. -/
structure Session where
  app : AppState
  inflight : List Nat

/-- A call `fetchSummaryAndData(id)` up to its `await`, in a session: when
the guard passes, the part before the `await` runs and a pair keyed by `id`
is in flight. -/
def Session.issue (id : Nat) (s : Session) : Session :=
  if detailIssued id s.app then { app := detailBegin s.app, inflight := s.inflight ++ [id] }
  else s

/-- A click on a history item. First `handleSelect(item)` runs:
`setSelected(item)` and `fetchSummaryAndData(item.id)`. Then the component
renders and the `useEffect` of lines 239 to 241 runs if `selected?.id`
differs from that of the previous render (the click changes none of its
other dependencies); it calls `fetchSummaryAndData(selected.id)` when
`selected?.id && credentials` holds. -/
def Session.click (item : UploadRecord) (s : Session) : Session :=
  let s1 := Session.issue item.id { s with app := { s.app with selected := some item } }
  if s.app.selected.map (fun r => r.id) ≠ some item.id then
    if item.id != 0 && s1.app.credentials.isSome then Session.issue item.id s1 else s1
  else s1

/-- The continuations of detail fetch pairs, run in the order in which the
pairs settle; each entry is the id of a pair and its outcome. -/
def settleAll (order : List (Nat × DetailOutcome)) (st : AppState) : AppState :=
  order.foldl (fun s p => detailSettle p.2 s) st

/-- The ids of the fetch pairs in flight after a click on `a` and then a
click on `b`, starting with none in flight. -/
def selectTwiceIssued (a b : UploadRecord) (st : AppState) : List Nat :=
  (Session.click b (Session.click a { app := st, inflight := [] })).inflight

/-- Two selections made back to back, then the fetch pairs settle: a click
on `a`, a click on `b`, and then the continuations of the pairs run in the
order `order`. In a run of the program `order` lists the pairs of
`selectTwiceIssued a b st`, in any order. -/
def selectTwice (a b : UploadRecord) (order : List (Nat × DetailOutcome))
    (st : AppState) : AppState :=
  settleAll order (Session.click b (Session.click a { app := st, inflight := [] })).app

/-- The user intents that change the history, each with the outcome of its
request: a login, a refresh, and an upload whose `POST` succeeded with the
record `res`. -/
inductive Intent where
  | login (creds : Credentials) (outcome : Except JsError (List UploadRecord))
  | refresh (outcome : Except JsError (List UploadRecord))
  | upload (file : String) (res : UploadRecord) (d : Except JsError (Nullable DataPayload))

/-- A history response seen as a nullable payload. -/
def asPayload (outcome : Except JsError (List UploadRecord)) :
    Except JsError (Nullable (List UploadRecord)) :=
  match outcome with
  | Except.ok h => Except.ok (some h)
  | Except.error e => Except.error e

/-- The handler run for an intent. -/
def Intent.apply (i : Intent) (st : AppState) : AppState :=
  match i with
  | Intent.login creds outcome => handleLogin creds (asPayload outcome) st
  | Intent.refresh outcome => fetchHistory (asPayload outcome) st
  | Intent.upload file res d => handleUpload (some file) (Except.ok res) d st

/-- The state after a sequence of intents, each run to completion. -/
def runIntents (steps : List Intent) (st : AppState) : AppState :=
  steps.foldl (fun s i => i.apply s) st

/-- The intent carries a history response with at most `n` records (or no
history response at all). -/
def Intent.bounded (n : Nat) (i : Intent) : Prop :=
  match i with
  | Intent.login _ (Except.ok h) => h.length ≤ n
  | Intent.refresh (Except.ok h) => h.length ≤ n
  | _ => True

/-- The count of uploads since the last history response, updated by one
intent. -/
def Intent.count (k : Nat) (i : Intent) : Nat :=
  match i with
  | Intent.login _ (Except.ok _) => 0
  | Intent.refresh (Except.ok _) => 0
  | Intent.upload _ _ _ => k + 1
  | _ => k

/-- The number of upload intents after the last login or refresh whose
request succeeded. -/
def uploadsSinceResponse (steps : List Intent) : Nat :=
  steps.foldl Intent.count 0

/-- The invariant behind the bound: the history has at most `5 + k`
records, and it is empty while no credentials are installed. -/
def HistoryInv (st : AppState) (k : Nat) : Prop :=
  st.historyLength ≤ 5 + k ∧ (st.credentials = none → st.historyLength = 0)

/-! ## Decoders, to state that the header encoding is reversible -/

/-- The value of a base64 digit, `none` for any other character. -/
def b64Value (c : Char) : Option Nat :=
  if b64Digits.indexOf c < 64 then some (b64Digits.indexOf c) else none

/-- The bytes encoded by one group of four base64 characters; padding is
accepted in the last group only. -/
def decodeGroup (w x y z : Char) (last : Bool) : Option (List Nat) :=
  match b64Value w, b64Value x with
  | some p, some q =>
    if y = '=' then
      if z = '=' ∧ last = true then some [p * 4 + q / 16] else none
    else
      match b64Value y with
      | none => none
      | some r =>
        if z = '=' then
          if last = true then some [p * 4 + q / 16, q % 16 * 16 + r / 4] else none
        else
          match b64Value z with
          | none => none
          | some t => some [p * 4 + q / 16, q % 16 * 16 + r / 4, r % 4 * 64 + t]
  | _, _ => none

/-- Base64 decoding of a character sequence. -/
def base64Decode : List Char → Option (List Nat)
  | [] => some []
  | w :: x :: y :: z :: rest =>
    match decodeGroup w x y z rest.isEmpty, base64Decode rest with
    | some g, some tl => some (g ++ tl)
    | _, _ => none
  | _ => none

/-- The builtin `atob`, to bytes. -/
def atob (s : String) : Option (List Nat) := base64Decode s.toList

/-- The first character of a UTF-8 byte sequence and the bytes after it;
the lead byte tells how many continuation bytes follow. -/
def utf8DecodeChar : List Nat → Option (Char × List Nat)
  | [] => none
  | b0 :: rest =>
    if b0 < 0x80 then some (Char.ofNat b0, rest)
    else if b0 < 0xE0 then
      match rest with
      | b1 :: r1 => some (Char.ofNat ((b0 - 0xC0) * 64 + (b1 - 0x80)), r1)
      | _ => none
    else if b0 < 0xF0 then
      match rest with
      | b1 :: b2 :: r2 =>
        some (Char.ofNat ((b0 - 0xE0) * 4096 + (b1 - 0x80) * 64 + (b2 - 0x80)), r2)
      | _ => none
    else
      match rest with
      | b1 :: b2 :: b3 :: r3 =>
        some (Char.ofNat
          ((b0 - 0xF0) * 262144 + (b1 - 0x80) * 4096 + (b2 - 0x80) * 64 + (b3 - 0x80)), r3)
      | _ => none

/-- UTF-8 decoding of a byte sequence, at most `fuel` characters. -/
def utf8DecodeFuel : Nat → List Nat → Option (List Char)
  | _, [] => some []
  | 0, _ :: _ => none
  | fuel + 1, b :: bs =>
    match utf8DecodeChar (b :: bs) with
    | none => none
    | some (c, rest) => (utf8DecodeFuel fuel rest).map (fun cs => c :: cs)

/-- UTF-8 decoding of a byte sequence; a sequence of `n` bytes holds at
most `n` characters. -/
def utf8Decode (bytes : List Nat) : Option (List Char) :=
  utf8DecodeFuel bytes.length bytes

/-- The string whose UTF-8 bytes are given. -/
def utf8DecodeString (bytes : List Nat) : Option String :=
  (utf8Decode bytes).map String.mk

/-! ## Sample values -/

/-- A record with id `i`. -/
def sampleRecord (i : Nat) : UploadRecord :=
  { id := i, filename := "f" ++ toString i ++ ".csv", summary := JsVal.num (JsNum.ofNat i) }

/-- The summary payload that the backend serves for `sampleRecord i`. -/
def sampleSummary (i : Nat) : SummaryPayload :=
  { summary := JsVal.num (JsNum.ofNat i), filename := "f" ++ toString i ++ ".csv" }

/-- The row payload that the backend serves for `sampleRecord i`. -/
def sampleData (i : Nat) : DataPayload :=
  { data := some [JsVal.num (JsNum.ofNat i)] }

/-- The demo credentials of the login form. -/
def demoUser : Credentials := { username := "admin", password := "admin" }

/-- A signed-in state showing record 1 with its detail. -/
def sampleSession : AppState :=
  { AppState.init with
    credentials := some demoUser
    history := some [sampleRecord 1]
    selected := some (sampleRecord 1)
    summary := some (sampleSummary 1)
    data := [JsVal.num (JsNum.ofNat 1)]
    error := "stale" }

/-! ## Theorems: transport client -/

/-- The operator `||` returns its left operand when that is truthy. -/
theorem JsVal.or_of_truthy {a : JsVal} (h : a.truthy = true) (b : JsVal) : a.or b = a := by
  simp [JsVal.or, h]

/-- The operator `||` returns its right operand when the left one is falsy. -/
theorem JsVal.or_of_falsy {a : JsVal} (h : a.truthy = false) (b : JsVal) : a.or b = b := by
  simp [JsVal.or, h]

/-- The search that `optField` makes finds what `List.lookup` finds. -/
theorem find_eq_lookup (fields : List (String × JsVal)) (key : String) :
    (fields.find? (fun kv => kv.1 == key)).map (fun kv => kv.2) = fields.lookup key := by
  induction fields with
  | nil => rfl
  | cons kv rest ih =>
    obtain ⟨k, v⟩ := kv
    by_cases h : k = key
    · subst h
      simp [List.find?_cons, List.lookup_cons]
    · have h2 : (key == k) = false := by
        simp only [beq_eq_false_iff_ne, ne_eq]
        exact fun hh => h hh.symm
      have h3 : (k == key) = false := by
        simp only [beq_eq_false_iff_ne, ne_eq]
        exact h
      simp only [List.find?_cons, List.lookup_cons, h2, h3]
      exact ih

/-- The property read of the model is the own field of the specification,
`undefined` when there is none. -/
theorem optField_eq_ownField (data : JsVal) (key : String) :
    data.optField key = (ownField data key).getD JsVal.undefined := by
  cases data with
  | obj fields =>
    simp only [JsVal.optField, ownField, ← find_eq_lookup]
    cases fields.find? (fun kv => kv.1 == key) <;> rfl
  | _ => rfl

/-- A field that is absent or empty reads as a falsy value. -/
theorem absentOrEmpty_falsy (v : Option JsVal) (h : absentOrEmpty v) :
    (v.getD JsVal.undefined).truthy = false := by
  rcases h with h | h | h | h | h | ⟨n, h, hn⟩
  · subst h; rfl
  · subst h; rfl
  · subst h; rfl
  · subst h; rfl
  · subst h; rfl
  · subst h; simp [JsVal.truthy, hn]

/-- On a non-success status `api` raises the classified error with the
string form of the value chosen by the `||` chain, or the conversion
error. -/
theorem api_of_not_ok (jsonParse : String → Option JsVal) (res : Response)
    (h : res.ok = false) :
    api jsonParse res =
      match (JsVal.or
        (JsVal.or (JsVal.or ((parseBody jsonParse res.text).optField "error")
          ((parseBody jsonParse res.text).optField "detail"))
          (JsVal.str res.statusText))
        (JsVal.str ("HTTP " ++ toString res.status))).toStr with
      | some m => classified res (parseBody jsonParse res.text) m
      | none => Except.error conversionError := by
  simp only [api, h, Bool.not_false, if_true, classified]

/-- On a non-success status, a truthy value of the message field decides
what `api` raises. -/
theorem api_of_messageField (jsonParse : String → Option JsVal) (res : Response)
    (h : res.ok = false) (v : JsVal) (hv : messageField (parseBody jsonParse res.text) v)
    (ht : v.truthy = true) :
    api jsonParse res =
      match v.toStr with
      | some m => classified res (parseBody jsonParse res.text) m
      | none => Except.error conversionError := by
  rw [api_of_not_ok jsonParse res h]
  have hchain : JsVal.or
        (JsVal.or (JsVal.or ((parseBody jsonParse res.text).optField "error")
          ((parseBody jsonParse res.text).optField "detail"))
          (JsVal.str res.statusText))
        (JsVal.str ("HTTP " ++ toString res.status)) = v := by
    rw [optField_eq_ownField, optField_eq_ownField]
    rcases hv with he | ⟨he, hd⟩
    · have h1 : ((ownField (parseBody jsonParse res.text) "error").getD JsVal.undefined) = v := by
        rw [he]; rfl
      rw [h1, JsVal.or_of_truthy ht, JsVal.or_of_truthy ht, JsVal.or_of_truthy ht]
    · have h1 := absentOrEmpty_falsy _ he
      have h2 : ((ownField (parseBody jsonParse res.text) "detail").getD JsVal.undefined) = v := by
        rw [hd]; rfl
      rw [JsVal.or_of_falsy h1, h2, JsVal.or_of_truthy ht, JsVal.or_of_truthy ht]
  rw [hchain]

/-- On a non-success status with neither field set, the status phrase, or
`HTTP <status>` when the phrase is empty, is the message. -/
theorem api_of_no_field (jsonParse : String → Option JsVal) (res : Response)
    (h : res.ok = false)
    (he : absentOrEmpty (ownField (parseBody jsonParse res.text) "error"))
    (hd : absentOrEmpty (ownField (parseBody jsonParse res.text) "detail")) :
    api jsonParse res =
      classified res (parseBody jsonParse res.text)
        (if res.statusText ≠ "" then res.statusText else "HTTP " ++ toString res.status) := by
  rw [api_of_not_ok jsonParse res h, optField_eq_ownField, optField_eq_ownField,
    JsVal.or_of_falsy (absentOrEmpty_falsy _ he), JsVal.or_of_falsy (absentOrEmpty_falsy _ hd)]
  by_cases h3 : res.statusText = ""
  · have h4 : (JsVal.str res.statusText).truthy = false := by simp [JsVal.truthy, h3]
    rw [JsVal.or_of_falsy h4]
    simp [h3, JsVal.toStr]
  · have h4 : (JsVal.str res.statusText).truthy = true := by simp [JsVal.truthy, h3]
    rw [JsVal.or_of_truthy h4]
    simp [h3, JsVal.toStr]

/-- Folding the separator in from an accumulator equals appending the fold
from the empty string. -/
theorem foldl_sep (ss : List String) :
    ∀ acc : String, ss.foldl (fun r x => r ++ "," ++ x) acc
      = acc ++ ss.foldl (fun r x => r ++ "," ++ x) "" := by
  induction ss with
  | nil => intro acc; simp
  | cons x rest ih =>
    intro acc
    simp only [List.foldl_cons]
    rw [ih (acc ++ "," ++ x), ih ("" ++ "," ++ x)]
    simp [String.append_assoc]

/-- The loop of `String.intercalate` is that fold. -/
theorem intercalate_go (ss : List String) :
    ∀ acc : String,
      String.intercalate.go acc "," ss = ss.foldl (fun r x => r ++ "," ++ x) acc := by
  induction ss with
  | nil => intro acc; rfl
  | cons x rest ih =>
    intro acc
    simp only [String.intercalate.go, List.foldl_cons]
    exact ih _

/-- The join of an array that starts with a string. -/
theorem joinItems_str_cons (s : String) (rest : List JsVal) :
    JsVal.joinItems (JsVal.str s :: rest) =
      if rest.isEmpty then some s
      else
        match JsVal.joinItems rest with
        | none => none
        | some t => some (s ++ "," ++ t) := by
  rw [JsVal.joinItems]
  · simp only [JsVal.toStr]
  · intro h; cases h
  · intro h; cases h

/-- The join of an array of strings is their concatenation with commas in
between. -/
theorem joinItems_strings (ss : List String) :
    JsVal.joinItems (ss.map JsVal.str) = some (String.intercalate "," ss) := by
  induction ss with
  | nil => rfl
  | cons x rest ih =>
    cases rest with
    | nil => rfl
    | cons y rest2 =>
      simp only [List.map_cons] at ih ⊢
      rw [joinItems_str_cons, ih]
      simp only [List.isEmpty_cons, Bool.false_eq_true, if_false, String.intercalate,
        intercalate_go, Option.some.injEq]
      rw [foldl_sep rest2 y, List.foldl_cons, foldl_sep rest2 (x ++ "," ++ y)]
      simp [String.append_assoc]


/-- C5, counterexample. A response with status 400 whose body is
`{"error": {"toString": 1}}`: the `error` field is truthy, `new Error`
cannot convert it to a string, and the error that `api` raises is the
`TypeError`, which carries no status and not the parsed body. -/
theorem api_error_without_status :
    api (fun _ => some (JsVal.obj
          [("error", JsVal.obj [("toString", JsVal.num (JsNum.ofNat 1))])]))
        { status := 400, statusText := "Bad Request",
          text := "\x7b\"error\": \x7b\"toString\": 1\x7d\x7d" }
      = Except.error conversionError ∧
    conversionError.status = none ∧
    conversionError.status ≠ some 400 := by
  refine ⟨rfl, rfl, ?_⟩
  simp [conversionError]

/-- C5, amended. Error classification of `api`, for every response and
every behaviour of `JSON.parse`. It raises exactly when the status is
outside 200 to 299, and on a success status it returns the parsed body,
which is `null` for an empty or unparseable body. On a non-success status
the message is taken from the body's `error` field, else (when that is
absent or empty) from its `detail` field, else it is the status phrase,
else (when the phrase is empty) `HTTP <status>`. When the field taken is a
string, a boolean, a number, an object without an own `toString` key or an
array whose elements convert, the error raised carries the response status,
the parsed body and the string form of that value as message (the string
itself for a string, the strings joined by commas for an array of
strings). When it is an object with an own `toString` key, the error raised
is the `TypeError` of the conversion, without status. -/
theorem api_classification (jsonParse : String → Option JsVal) (res : Response) :
    ((∃ e, api jsonParse res = Except.error e) ↔ ¬ (200 ≤ res.status ∧ res.status ≤ 299)) ∧
    ((200 ≤ res.status ∧ res.status ≤ 299) →
      api jsonParse res = Except.ok (parseBody jsonParse res.text)) ∧
    (res.text = "" → parseBody jsonParse res.text = JsVal.null) ∧
    (jsonParse res.text = none → parseBody jsonParse res.text = JsVal.null) ∧
    (∀ v, res.text ≠ "" → jsonParse res.text = some v →
      parseBody jsonParse res.text = v) ∧
    (¬ (200 ≤ res.status ∧ res.status ≤ 299) →
      (∀ s, ownField (parseBody jsonParse res.text) "error" = some (JsVal.str s) → s ≠ "" →
        api jsonParse res = classified res (parseBody jsonParse res.text) s) ∧
      (∀ s, absentOrEmpty (ownField (parseBody jsonParse res.text) "error") →
        ownField (parseBody jsonParse res.text) "detail" = some (JsVal.str s) → s ≠ "" →
        api jsonParse res = classified res (parseBody jsonParse res.text) s) ∧
      (absentOrEmpty (ownField (parseBody jsonParse res.text) "error") →
        absentOrEmpty (ownField (parseBody jsonParse res.text) "detail") →
        res.statusText ≠ "" →
        api jsonParse res = classified res (parseBody jsonParse res.text) res.statusText) ∧
      (absentOrEmpty (ownField (parseBody jsonParse res.text) "error") →
        absentOrEmpty (ownField (parseBody jsonParse res.text) "detail") →
        res.statusText = "" →
        api jsonParse res =
          classified res (parseBody jsonParse res.text) ("HTTP " ++ toString res.status)) ∧
      (∀ v, messageField (parseBody jsonParse res.text) v →
        (v = JsVal.bool true →
          api jsonParse res = classified res (parseBody jsonParse res.text) "true") ∧
        (∀ n : JsNum, v = JsVal.num n → n.isZero = false →
          api jsonParse res = classified res (parseBody jsonParse res.text) n.text) ∧
        (∀ fs, v = JsVal.obj fs → fs.lookup "toString" = none →
          api jsonParse res =
            classified res (parseBody jsonParse res.text) "[object Object]") ∧
        (∀ fs w, v = JsVal.obj fs → fs.lookup "toString" = some w →
          api jsonParse res = Except.error conversionError) ∧
        (∀ ss : List String, v = JsVal.arr (ss.map JsVal.str) →
          api jsonParse res =
            classified res (parseBody jsonParse res.text) (String.intercalate "," ss)) ∧
        (∀ s t, v = JsVal.arr [JsVal.str s, JsVal.null, JsVal.str t] →
          api jsonParse res =
            classified res (parseBody jsonParse res.text) (s ++ "," ++ ("" ++ "," ++ t))) ∧
        (∀ items, v = JsVal.arr items →
          api jsonParse res =
            match JsVal.joinItems items with
            | some m => classified res (parseBody jsonParse res.text) m
            | none => Except.error conversionError))) := by
  have hok : res.ok = true ↔ (200 ≤ res.status ∧ res.status ≤ 299) := by
    simp [Response.ok]
  refine ⟨?_, ?_, ?_, ?_, ?_, ?_⟩
  · by_cases h : res.ok = true
    · simp [api, h, hok.mp h]
    · have h2 : ¬ (200 ≤ res.status ∧ res.status ≤ 299) := fun hh => h (hok.mpr hh)
      simp only [Bool.not_eq_true] at h
      simp only [h2, not_false_eq_true, iff_true]
      rw [api_of_not_ok jsonParse res h]
      split
      · exact ⟨_, rfl⟩
      · exact ⟨_, rfl⟩
  · intro h
    have h2 : res.ok = true := hok.mpr h
    simp [api, h2]
  · intro h
    simp [parseBody, h]
  · intro h
    by_cases ht : res.text = "" <;> simp [parseBody, h, ht]
  · intro v ht h
    simp [parseBody, h, ht]
  · intro hn
    have h : res.ok = false := by
      cases hr : res.ok with
      | false => rfl
      | true => exact absurd (hok.mp hr) hn
    refine ⟨?_, ?_, ?_, ?_, ?_⟩
    · intro s hs hne
      have ht : (JsVal.str s).truthy = true := by simp [JsVal.truthy, hne]
      rw [api_of_messageField jsonParse res h (JsVal.str s) (Or.inl hs) ht]
      rfl
    · intro s he hs hne
      have ht : (JsVal.str s).truthy = true := by simp [JsVal.truthy, hne]
      rw [api_of_messageField jsonParse res h (JsVal.str s) (Or.inr ⟨he, hs⟩) ht]
      rfl
    · intro he hd hne
      rw [api_of_no_field jsonParse res h he hd]
      simp [hne]
    · intro he hd hne
      rw [api_of_no_field jsonParse res h he hd]
      simp [hne]
    · intro v hv
      refine ⟨?_, ?_, ?_, ?_, ?_, ?_, ?_⟩
      · intro hb
        subst hb
        rw [api_of_messageField jsonParse res h _ hv rfl]
        rfl
      · intro n hvn hz
        subst hvn
        have ht : (JsVal.num n).truthy = true := by simp [JsVal.truthy, hz]
        rw [api_of_messageField jsonParse res h _ hv ht]
        rfl
      · intro fs hvf hl
        subst hvf
        rw [api_of_messageField jsonParse res h _ hv rfl]
        have hf : fs.find? (fun kv => kv.1 == "toString") = none := by
          have := find_eq_lookup fs "toString"
          rw [hl] at this
          cases hfind : fs.find? (fun kv => kv.1 == "toString") with
          | none => rfl
          | some kv => rw [hfind] at this; simp at this
        simp [JsVal.toStr, hf]
      · intro fs w hvf hl
        subst hvf
        rw [api_of_messageField jsonParse res h _ hv rfl]
        have hf : (fs.find? (fun kv => kv.1 == "toString")).isSome = true := by
          have := find_eq_lookup fs "toString"
          rw [hl] at this
          cases hfind : fs.find? (fun kv => kv.1 == "toString") with
          | none => rw [hfind] at this; simp at this
          | some kv => rfl
        simp [JsVal.toStr, hf]
      · intro ss ha
        subst ha
        rw [api_of_messageField jsonParse res h _ hv rfl]
        simp only [JsVal.toStr, joinItems_strings]
      · intro s t ha
        subst ha
        rw [api_of_messageField jsonParse res h _ hv rfl]
        rfl
      · intro items ha
        subst ha
        rw [api_of_messageField jsonParse res h _ hv rfl]
        simp only [JsVal.toStr]

/-- Sample runs of `api`: a 401 whose body carries `detail`, a 500 with an
unparseable body and a status phrase, a 404 with neither, an empty `error`
field next to a `detail`, a numeric `error` field, and a 204 with an empty
body. -/
theorem api_examples :
    (api (fun _ => some (JsVal.obj [("detail", JsVal.str "Invalid credentials")]))
        { status := 401, statusText := "Unauthorized", text := "body" })
      = classified { status := 401, statusText := "Unauthorized", text := "body" }
          (JsVal.obj [("detail", JsVal.str "Invalid credentials")]) "Invalid credentials" ∧
    (api (fun _ => none)
        { status := 500, statusText := "Internal Server Error", text := "<html>" })
      = classified { status := 500, statusText := "Internal Server Error", text := "<html>" }
          JsVal.null "Internal Server Error" ∧
    (api (fun _ => none) { status := 404, statusText := "", text := "" })
      = classified { status := 404, statusText := "", text := "" } JsVal.null "HTTP 404" ∧
    (api
        (fun _ => some (JsVal.obj [("error", JsVal.str ""), ("detail", JsVal.str "No file")]))
        { status := 400, statusText := "Bad Request", text := "body" })
      = classified { status := 400, statusText := "Bad Request", text := "body" }
          (JsVal.obj [("error", JsVal.str ""), ("detail", JsVal.str "No file")]) "No file" ∧
    (api (fun _ => some (JsVal.obj [("error", JsVal.num { isZero := false, text := "1e+21" })]))
        { status := 400, statusText := "Bad Request", text := "body" })
      = classified { status := 400, statusText := "Bad Request", text := "body" }
          (JsVal.obj [("error", JsVal.num { isZero := false, text := "1e+21" })]) "1e+21" ∧
    (api (fun _ => none) { status := 204, statusText := "No Content", text := "" })
      = Except.ok JsVal.null :=
  ⟨rfl, rfl, rfl, rfl, rfl, rfl⟩

/-! ## Theorems: history and selection -/

/-- C2. Selection reconciliation in `fetchHistory`: with credentials
present and a history list `h` returned, the new selection is `h[0]` when
there was none and `h` is non-empty; it is `h[0]` (none for an empty `h`)
when the selected id occurs nowhere in `h`; it is unchanged when the
selected id occurs in `h`, and when there was none and `h` is empty. -/
theorem fetchHistory_selection (st : AppState) (c : Credentials) (h : List UploadRecord)
    (hc : st.credentials = some c) :
    (st.selected = none → h ≠ [] →
      (fetchHistory (Except.ok (some h)) st).selected = h.head?) ∧
    (∀ s, st.selected = some s → (∀ x ∈ h, x.id ≠ s.id) →
      (fetchHistory (Except.ok (some h)) st).selected = h.head?) ∧
    (∀ s, st.selected = some s → (∃ x ∈ h, x.id = s.id) →
      (fetchHistory (Except.ok (some h)) st).selected = some s) ∧
    (st.selected = none → h = [] →
      (fetchHistory (Except.ok (some h)) st).selected = none) ∧
    (fetchHistory (Except.ok (some h)) st).history = some h := by
  refine ⟨?_, ?_, ?_, ?_, ?_⟩
  · intro hs hne
    have hl : h.length ≠ 0 := by
      intro h0
      exact hne (List.length_eq_zero.mp h0)
    simp [fetchHistory, hc, hs, hl]
  · intro s hs hall
    have hf : h.find? (fun (x : UploadRecord) => x.id == s.id) = none := by
      rw [List.find?_eq_none]
      intro x hx
      simpa using hall x hx
    simp [fetchHistory, hc, hs, hf]
  · intro s hs hex
    obtain ⟨x, hx, hxs⟩ := hex
    have hf : (h.find? (fun (x : UploadRecord) => x.id == s.id)).isNone = false := by
      cases hfind : h.find? (fun (x : UploadRecord) => x.id == s.id) with
      | some y => rfl
      | none =>
        rw [List.find?_eq_none] at hfind
        have := hfind x hx
        simp [hxs] at this
    simp [fetchHistory, hc, hs, hf]
  · intro hs he
    simp [fetchHistory, hc, hs, he]
  · cases hs : st.selected with
    | none =>
      by_cases hl : h.length = 0 <;> simp [fetchHistory, hc, hs, hl]
    | some s =>
      by_cases hf : (h.find? (fun (x : UploadRecord) => x.id == s.id)).isNone = true <;>
        simp [fetchHistory, hc, hs, hf]

/-- Witness of C2 on the two scenarios of the specification: no selection
and a refresh returning `[X, Y]` selects `X`; selection `X` and a refresh
returning `[Y, Z]` selects `Y`. -/
theorem fetchHistory_selection_witness :
    (fetchHistory (Except.ok (some [sampleRecord 1, sampleRecord 2]))
        { AppState.init with credentials := some demoUser }).selected
      = some (sampleRecord 1) ∧
    (fetchHistory (Except.ok (some [sampleRecord 2, sampleRecord 3]))
        { AppState.init with credentials := some demoUser,
                             selected := some (sampleRecord 1) }).selected
      = some (sampleRecord 2) :=
  ⟨(fetchHistory_selection { AppState.init with credentials := some demoUser } demoUser
      [sampleRecord 1, sampleRecord 2] rfl).1 rfl (by simp),
   (fetchHistory_selection
      { AppState.init with credentials := some demoUser, selected := some (sampleRecord 1) }
      demoUser [sampleRecord 2, sampleRecord 3] rfl).2.1 (sampleRecord 1) rfl
      (by simp [sampleRecord])⟩

/-- C3. `recordUpload` deduplicates by id at the front: on a history
without duplicate ids the result has the new record at index 0, has no
duplicate ids, keeps the other records in their previous order, and a
second insertion under the same id keeps the length and puts that record
at the front. -/
theorem recordUpload_dedup (prev : List UploadRecord) (r : UploadRecord)
    (hnd : (prev.map (fun x => x.id)).Nodup) :
    (recordUpload r prev)[0]? = some r ∧
    ((recordUpload r prev).map (fun x => x.id)).Nodup ∧
    (recordUpload r prev).tail = prev.filter (fun x => x.id != r.id) ∧
    List.Sublist (recordUpload r prev).tail prev ∧
    (∀ x ∈ prev, x.id ≠ r.id → x ∈ (recordUpload r prev).tail) ∧
    (∀ r2 : UploadRecord, r2.id = r.id →
      (recordUpload r2 (recordUpload r prev)).length = (recordUpload r prev).length ∧
      (recordUpload r2 (recordUpload r prev))[0]? = some r2) := by
  refine ⟨by simp [recordUpload], ?_, rfl, ?_, ?_, ?_⟩
  · simp only [recordUpload, List.map_cons, List.nodup_cons]
    constructor
    · intro hmem
      rw [List.mem_map] at hmem
      obtain ⟨x, hx, hxr⟩ := hmem
      rw [List.mem_filter] at hx
      simp [hxr] at hx
    · exact (hnd.sublist ((List.filter_sublist prev).map _))
  · exact List.filter_sublist prev
  · intro x hx hne
    simp only [recordUpload, List.tail_cons, List.mem_filter]
    exact ⟨hx, by simpa using hne⟩
  · intro r2 h2
    refine ⟨?_, by simp [recordUpload]⟩
    simp only [recordUpload, List.length_cons, h2, List.filter_cons, bne_self_eq_false,
      Bool.false_eq_true, if_false, List.filter_filter, Bool.and_self]

/-- Witness of C3: inserting record 2 into the history `[1, 2]`. -/
theorem recordUpload_dedup_witness :
    (recordUpload (sampleRecord 2) [sampleRecord 1, sampleRecord 2])[0]? = some (sampleRecord 2) ∧
    (recordUpload (sampleRecord 2) [sampleRecord 1, sampleRecord 2]).length = 2 :=
  ⟨(recordUpload_dedup [sampleRecord 1, sampleRecord 2] (sampleRecord 2)
      (by simp [sampleRecord])).1, rfl⟩

/-! ## Theorems: login, detail fetch, sign-out, download -/

/-- A rejected login probe leaves credentials and history as they were and
reports a non-empty message for status 401. -/
theorem handleLogin_rejected (creds : Credentials) (e : JsError) (st : AppState) :
    (handleLogin creds (Except.error e) st).credentials = st.credentials ∧
    (handleLogin creds (Except.error e) st).history = st.history ∧
    (e.status = some 401 →
      (handleLogin creds (Except.error e) st).authError = "Invalid username or password") ∧
    (e.status ≠ some 401 →
      (handleLogin creds (Except.error e) st).authError = e.message) := by
  refine ⟨rfl, rfl, ?_, ?_⟩
  · intro h
    simp [handleLogin, h]
  · intro h
    simp [handleLogin, h]

/-- C4, evaluated at the failing input. A probe answered with status 200 and
an empty body makes `api` return `null`; `handleLogin` then reports a
failure (`authError` is set to the non-empty message of the `TypeError`
raised by `h.length`) although it has already installed the credentials and
replaced the history by `null`. -/
theorem handleLogin_null_payload_installs :
    (∀ jsonParse, api jsonParse { status := 200, statusText := "OK", text := "" }
      = Except.ok JsVal.null) ∧
    (handleLogin demoUser (Except.ok none) AppState.init).authError
      = "Cannot read properties of null (reading 'length')" ∧
    (handleLogin demoUser (Except.ok none) AppState.init).authError ≠ "" ∧
    AppState.init.credentials = none ∧
    (handleLogin demoUser (Except.ok none) AppState.init).credentials = some demoUser ∧
    AppState.init.history = some [] ∧
    (handleLogin demoUser (Except.ok none) AppState.init).history = none := by
  refine ⟨?_, ?_, ?_, rfl, rfl, rfl, rfl⟩
  · intro jsonParse
    simp [api, Response.ok, parseBody]
  · simp [handleLogin, nullReadError]
  · simp [handleLogin, nullReadError]

/-- A detail fetch in which either read is rejected changes neither the
summary nor the data and reports a non-empty error. -/
theorem fetchSummaryAndData_rejected (id : Nat) (st : AppState)
    (s : Except JsError (Nullable SummaryPayload)) (d : Except JsError (Nullable DataPayload))
    (secondFirst : Bool) (e : JsError) (h : promiseAll s d secondFirst = Except.error e) :
    (fetchSummaryAndData id s d secondFirst st).summary = st.summary ∧
    (fetchSummaryAndData id s d secondFirst st).data = st.data ∧
    (detailIssued id st = true → (fetchSummaryAndData id s d secondFirst st).error ≠ "") := by
  by_cases hi : detailIssued id st = true
  · simp only [fetchSummaryAndData, hi, if_true, h, detailSettle, detailBegin, true_and,
      forall_const]
    simp only [orElse]
    split <;> simp_all
  · simp [fetchSummaryAndData, hi]

/-- C6, evaluated at the failing input. When the summary read returns a
payload and the row-data read returns `null` (status 200, empty body),
`fetchSummaryAndData` reports an error (the `TypeError` raised by `d.data`)
after `setSummary(s)` has run: the summary has changed, the data has not. -/
theorem fetchSummaryAndData_null_data_half_applied :
    (fetchSummaryAndData 2 (Except.ok (some (sampleSummary 2))) (Except.ok none) false
        sampleSession).error = "Cannot read properties of null (reading 'data')" ∧
    sampleSession.summary = some (sampleSummary 1) ∧
    (fetchSummaryAndData 2 (Except.ok (some (sampleSummary 2))) (Except.ok none) false
        sampleSession).summary = some (sampleSummary 2) ∧
    (fetchSummaryAndData 2 (Except.ok (some (sampleSummary 2))) (Except.ok none) false
        sampleSession).data = sampleSession.data ∧
    sampleSummary 2 ≠ sampleSummary 1 := by
  refine ⟨?_, rfl, rfl, rfl, ?_⟩
  · simp [fetchSummaryAndData, detailIssued, sampleSession, AppState.init, promiseAll,
      detailSettle, detailBegin, nullReadError, orElse]
  · intro h
    exact absurd (congrArg (fun p => p.filename) h) (by decide)

/-- C7, counterexample. Signing out of a session that shows record 1 leaves
the history, the selection, the summary, the data and the stored error in
place. -/
theorem signOut_keeps_session_data :
    (signOut sampleSession).credentials = none ∧
    (signOut sampleSession).historyLength = 1 ∧
    (signOut sampleSession).selected.isSome = true ∧
    (signOut sampleSession).summary.isSome = true ∧
    (signOut sampleSession).data.length = 1 ∧
    (signOut sampleSession).error = "stale" :=
  ⟨rfl, rfl, rfl, rfl, rfl, rfl⟩

/-- C7, amended. After sign-out the credentials are unset and every other
cell of the state (history, selection, summary, data, errors, busy flags)
is what it was. -/
theorem signOut_clears_credentials_only (st : AppState) :
    (signOut st).credentials = none ∧
    signOut st = { st with credentials := none } ∧
    (signOut st).history = st.history ∧
    (signOut st).selected = st.selected ∧
    (signOut st).summary = st.summary ∧
    (signOut st).data = st.data ∧
    (signOut st).error = st.error ∧
    (signOut st).authError = st.authError :=
  ⟨rfl, rfl, rfl, rfl, rfl, rfl, rfl, rfl⟩

/-- On a successful save `downloadReport` revokes the handle it created, as
its last effect, and returns; on a non-success status it raises
`HTTP <status>` having performed the `fetch` only. -/
theorem downloadReport_normal_paths (apiBase : String) (uploadId : Nat) (filename : String)
    (credentials : Option Credentials) (res : Response) (handle : Nat) :
    (res.ok = true →
      (downloadReport apiBase uploadId filename credentials res handle none).raised.isNone = true ∧
      Effect.createObjectURL handle ∈
        (downloadReport apiBase uploadId filename credentials res handle none).trace ∧
      (downloadReport apiBase uploadId filename credentials res handle none).trace.getLast?
        = some (Effect.revokeObjectURL handle)) ∧
    (res.ok = false → ∀ saveError,
      ((downloadReport apiBase uploadId filename credentials res handle saveError).raised.map
          (fun e => e.message)) = some ("HTTP " ++ toString res.status) ∧
      (downloadReport apiBase uploadId filename credentials res handle saveError).trace.length
        = 1 ∧
      (∀ h, Effect.createObjectURL h ∉
        (downloadReport apiBase uploadId filename credentials res handle saveError).trace) ∧
      (∀ h n, Effect.click h n ∉
        (downloadReport apiBase uploadId filename credentials res handle saveError).trace)) := by
  constructor
  · intro hok
    simp [downloadReport, hok]
  · intro hok saveError
    simp [downloadReport, hok]

/-- C10, evaluated at the failing input. When the response is a success and
the save step `a.click()` raises, `downloadReport` exits with that error
having created the handle and never revoked it. -/
theorem downloadReport_leaks_on_save_error :
    (downloadReport "/api" 7 "f7.csv" (some demoUser)
      { status := 200, statusText := "OK", text := "" } 42
      (some { message := "save failed", status := none, data := JsVal.undefined })).raised.isSome
      = true ∧
    Effect.createObjectURL 42 ∈
      (downloadReport "/api" 7 "f7.csv" (some demoUser)
        { status := 200, statusText := "OK", text := "" } 42
        (some { message := "save failed", status := none, data := JsVal.undefined })).trace ∧
    Effect.revokeObjectURL 42 ∉
      (downloadReport "/api" 7 "f7.csv" (some demoUser)
        { status := 200, statusText := "OK", text := "" } 42
        (some { message := "save failed", status := none, data := JsVal.undefined })).trace := by
  refine ⟨?_, ?_, ?_⟩ <;> simp [downloadReport, Response.ok]

/-! ## Theorems: two selections in flight -/

/-- Selecting a record leaves the credentials as they are. -/
theorem handleSelect_credentials (item : UploadRecord) (st : AppState) :
    (handleSelect item st).credentials = st.credentials := by
  simp only [handleSelect]
  split <;> rfl

/-- Selecting a record makes it the selection. -/
theorem handleSelect_selected (item : UploadRecord) (st : AppState) :
    (handleSelect item st).selected = some item := by
  simp only [handleSelect]
  split <;> rfl

/-- The state after the first part of a click is the one `handleSelect`
yields. -/
theorem issue_app_eq_handleSelect (item : UploadRecord) (s : Session) :
    (Session.issue item.id { s with app := { s.app with selected := some item } }).app
      = handleSelect item s.app := by
  simp only [Session.issue, handleSelect]
  split <;> rfl

/-- The continuation of a detail fetch whose two reads succeeded with a
non-null row payload sets summary and data and clears the busy flag. -/
theorem detailSettle_ok (s : Nullable SummaryPayload) (dp : DataPayload) (st : AppState) :
    detailSettle (Except.ok (s, some dp)) st =
      { st with summary := s, data := dp.data.getD [], loading := false } := rfl

/-- No continuation of a detail fetch changes the selection. -/
theorem detailSettle_selected (r : DetailOutcome) (st : AppState) :
    (detailSettle r st).selected = st.selected := by
  simp only [detailSettle]
  split
  · split <;> rfl
  · rfl

/-- Settling any pairs leaves the selection as it is. -/
theorem settleAll_selected (order : List (Nat × DetailOutcome)) :
    ∀ st : AppState, (settleAll order st).selected = st.selected := by
  induction order with
  | nil => intro st; rfl
  | cons p rest ih =>
    intro st
    simp only [settleAll, List.foldl_cons]
    exact (ih _).trans (detailSettle_selected p.2 st)

/-- When the guard passes, a call of `fetchSummaryAndData` runs the part
before the `await` and puts a pair keyed by its id in flight. -/
theorem issue_of_guard (id : Nat) (s : Session) (h : detailIssued id s.app = true) :
    Session.issue id s = { app := detailBegin s.app, inflight := s.inflight ++ [id] } := by
  simp only [Session.issue, h, if_true]

/-- With credentials present and a truthy id, a click selects the item and
puts one pair in flight, and a second one when the selected id changes. -/
theorem click_spec (item : UploadRecord) (s : Session) (c : Credentials)
    (hc : s.app.credentials = some c) (hid : item.id ≠ 0) :
    (Session.click item s).app.selected = some item ∧
    (Session.click item s).app.credentials = some c ∧
    (Session.click item s).inflight =
      s.inflight ++
        (if s.app.selected.map (fun r => r.id) ≠ some item.id then [item.id, item.id]
         else [item.id]) := by
  have hne : (item.id != 0) = true := by simp [hid]
  by_cases hch : s.app.selected.map (fun r => r.id) ≠ some item.id
  · simp [Session.click, Session.issue, detailIssued, detailBegin, hc, hne, hch]
  · simp [Session.click, Session.issue, detailIssued, detailBegin, hc, hne, hch]

/-- C1, counterexample. Records 1 and 2 are clicked back to back after a
login; four fetch pairs are in flight, two keyed by each id. The pairs of
record 2 settle first and those of record 1 last. The final summary and
data are those served for record 1, not those of record 2, while the
selection is record 2. -/
theorem selectTwice_stale_overwrites :
    (sampleRecord 1).id ≠ (sampleRecord 2).id ∧
    selectTwiceIssued (sampleRecord 1) (sampleRecord 2)
      { AppState.init with credentials := some demoUser } = [1, 1, 2, 2] ∧
    List.Perm [2, 2, 1, 1]
      (selectTwiceIssued (sampleRecord 1) (sampleRecord 2)
        { AppState.init with credentials := some demoUser }) ∧
    (selectTwice (sampleRecord 1) (sampleRecord 2)
      [(2, Except.ok (some (sampleSummary 2), some (sampleData 2))),
       (2, Except.ok (some (sampleSummary 2), some (sampleData 2))),
       (1, Except.ok (some (sampleSummary 1), some (sampleData 1))),
       (1, Except.ok (some (sampleSummary 1), some (sampleData 1)))]
      { AppState.init with credentials := some demoUser }).summary
      = some (sampleSummary 1) ∧
    (selectTwice (sampleRecord 1) (sampleRecord 2)
      [(2, Except.ok (some (sampleSummary 2), some (sampleData 2))),
       (2, Except.ok (some (sampleSummary 2), some (sampleData 2))),
       (1, Except.ok (some (sampleSummary 1), some (sampleData 1))),
       (1, Except.ok (some (sampleSummary 1), some (sampleData 1)))]
      { AppState.init with credentials := some demoUser }).data
      = (sampleData 1).data.getD [] ∧
    (selectTwice (sampleRecord 1) (sampleRecord 2)
      [(2, Except.ok (some (sampleSummary 2), some (sampleData 2))),
       (2, Except.ok (some (sampleSummary 2), some (sampleData 2))),
       (1, Except.ok (some (sampleSummary 1), some (sampleData 1))),
       (1, Except.ok (some (sampleSummary 1), some (sampleData 1)))]
      { AppState.init with credentials := some demoUser }).selected.map (fun r => r.id)
      = some 2 ∧
    some (sampleSummary 1) ≠ some (sampleSummary 2) ∧
    (sampleData 1).data.getD [] ≠ (sampleData 2).data.getD [] := by
  have hissued : selectTwiceIssued (sampleRecord 1) (sampleRecord 2)
      { AppState.init with credentials := some demoUser } = [1, 1, 2, 2] := rfl
  refine ⟨by decide, hissued, ?_, rfl, rfl, rfl, ?_, ?_⟩
  · rw [hissued]
    decide
  · intro h
    have h2 : sampleSummary 1 = sampleSummary 2 := Option.some.inj h
    exact absurd (congrArg (fun p => p.filename) h2) (by decide)
  · intro h
    simp only [sampleData, Option.getD_some, List.cons.injEq, JsVal.num.injEq, and_true] at h
    exact absurd h (by decide)

/-- C1, amended. With credentials present and two records of truthy ids
clicked back to back, the fetch pairs in flight are one per `handleSelect`
and one per change of the selected id (by the effect of lines 239 to 241),
so two or one keyed by `a` and, for different ids, two keyed by `b`. Let
them settle in any order. If the pair that settles last succeeds with a
non-null row payload, then it is keyed by `a` or by `b` and the final
summary and data are its responses, whatever the outcomes of the pairs
before it; the selection is `b`. -/
theorem selectTwice_last_settled_wins (st : AppState) (c : Credentials) (a b : UploadRecord)
    (order : List (Nat × DetailOutcome)) (x : Nat) (s : Nullable SummaryPayload)
    (d : DataPayload)
    (hc : st.credentials = some c) (ha : a.id ≠ 0) (hb : b.id ≠ 0) (hab : a.id ≠ b.id)
    (hperm : List.Perm (order.map (fun p => p.1)) (selectTwiceIssued a b st))
    (hlast : order.getLast? = some (x, Except.ok (s, some d))) :
    selectTwiceIssued a b st =
      (if st.selected.map (fun r => r.id) ≠ some a.id then [a.id, a.id] else [a.id])
        ++ [b.id, b.id] ∧
    (x = a.id ∨ x = b.id) ∧
    (selectTwice a b order st).summary = s ∧
    (selectTwice a b order st).data = d.data.getD [] ∧
    (selectTwice a b order st).selected = some b := by
  have h1 := click_spec a { app := st, inflight := [] } c hc ha
  have h2 := click_spec b (Session.click a { app := st, inflight := [] }) c h1.2.1 hb
  have hsel : (Session.click a { app := st, inflight := [] }).app.selected.map (fun r => r.id)
      ≠ some b.id := by
    rw [h1.1]
    simp only [Option.map_some', ne_eq, Option.some.injEq]
    exact hab
  have hissued : selectTwiceIssued a b st =
      (if st.selected.map (fun r => r.id) ≠ some a.id then [a.id, a.id] else [a.id])
        ++ [b.id, b.id] := by
    simp only [selectTwiceIssued]
    rw [h2.2.2, h1.2.2, if_pos hsel]
    rfl
  obtain ⟨front, hfront⟩ := List.getLast?_eq_some_iff.mp hlast
  refine ⟨hissued, ?_, ?_, ?_, ?_⟩
  · have hx : x ∈ order.map (fun p => p.1) := by
      rw [hfront]
      simp
    have hx2 := hperm.subset hx
    rw [hissued] at hx2
    by_cases hch : st.selected.map (fun r => r.id) ≠ some a.id
    · rw [if_pos hch] at hx2
      simp only [List.mem_append, List.mem_cons, List.mem_singleton, List.not_mem_nil,
        or_false, or_self] at hx2
      exact hx2
    · rw [if_neg hch] at hx2
      simp only [List.mem_append, List.mem_cons, List.mem_singleton, List.not_mem_nil,
        or_false, or_self] at hx2
      exact hx2
  · simp only [selectTwice, settleAll, hfront, List.foldl_append, List.foldl_cons,
      List.foldl_nil, detailSettle_ok]
  · simp only [selectTwice, settleAll, hfront, List.foldl_append, List.foldl_cons,
      List.foldl_nil, detailSettle_ok]
  · simp only [selectTwice]
    rw [settleAll_selected]
    exact h2.1

/-- Witness of C1 amended: records 1 and 2 clicked after a login, the four
pairs settling in the order of issue, so that a pair of record 2 settles
last. -/
theorem selectTwice_last_settled_wins_witness :
    (selectTwice (sampleRecord 1) (sampleRecord 2)
      [(1, Except.ok (some (sampleSummary 1), some (sampleData 1))),
       (1, Except.error (nullReadError "data")),
       (2, Except.ok (some (sampleSummary 2), none)),
       (2, Except.ok (some (sampleSummary 2), some (sampleData 2)))]
      { AppState.init with credentials := some demoUser }).summary
      = some (sampleSummary 2) :=
  (selectTwice_last_settled_wins { AppState.init with credentials := some demoUser } demoUser
    (sampleRecord 1) (sampleRecord 2)
    [(1, Except.ok (some (sampleSummary 1), some (sampleData 1))),
     (1, Except.error (nullReadError "data")),
     (2, Except.ok (some (sampleSummary 2), none)),
     (2, Except.ok (some (sampleSummary 2), some (sampleData 2)))]
    2 (some (sampleSummary 2)) (sampleData 2)
    rfl (by decide) (by decide) (by decide)
    (by
      have hissued : selectTwiceIssued (sampleRecord 1) (sampleRecord 2)
          { AppState.init with credentials := some demoUser } = [1, 1, 2, 2] := rfl
      rw [hissued]
      decide)
    rfl).2.2.1

/-! ## Theorems: length of the history -/

/-- An upload lengthens the history by at most one record. -/
theorem recordUpload_length_le (res : UploadRecord) (prev : List UploadRecord) :
    (recordUpload res prev).length ≤ prev.length + 1 := by
  simp only [recordUpload, List.length_cons, Nat.add_le_add_iff_right]
  exact List.length_filter_le _ _

/-- The history and credentials after a successful upload. -/
theorem handleUpload_history (file : String) (res : UploadRecord)
    (d : Except JsError (Nullable DataPayload)) (st : AppState) :
    (handleUpload (some file) (Except.ok res) d st).credentials = st.credentials ∧
    (handleUpload (some file) (Except.ok res) d st).history =
      if st.credentials.isNone then st.history else st.history.map (recordUpload res) := by
  cases hc : st.credentials with
  | none => simp [handleUpload, hc]
  | some c =>
    simp only [handleUpload, hc, Option.isNone_some, Option.isNone_none, Bool.or_self,
      Bool.false_eq_true, if_false]
    constructor
    · split <;> rfl
    · split <;> rfl

/-- The history and credentials after a refresh. -/
theorem fetchHistory_history (outcome : Except JsError (List UploadRecord)) (st : AppState) :
    (fetchHistory (asPayload outcome) st).credentials = st.credentials ∧
    (fetchHistory (asPayload outcome) st).history =
      match st.credentials, outcome with
      | some _, Except.ok h => some h
      | _, _ => st.history := by
  cases hc : st.credentials with
  | none => simp [fetchHistory, hc]
  | some c =>
    cases outcome with
    | error e => simp [fetchHistory, hc, asPayload]
    | ok h =>
      simp only [fetchHistory, hc, asPayload]
      constructor
      · split <;> split <;> simp_all
      · split <;> split <;> simp_all

/-- The history and credentials after a login. -/
theorem handleLogin_history (creds : Credentials) (outcome : Except JsError (List UploadRecord))
    (st : AppState) :
    (handleLogin creds (asPayload outcome) st).credentials =
      (match outcome with
      | Except.ok _ => some creds
      | Except.error _ => st.credentials) ∧
    (handleLogin creds (asPayload outcome) st).history =
      (match outcome with
      | Except.ok h => some h
      | Except.error _ => st.history) := by
  cases outcome with
  | error e => simp [handleLogin, asPayload]
  | ok h =>
    simp only [handleLogin, asPayload]
    constructor
    · split <;> rfl
    · split <;> rfl

/-- Every intent preserves the invariant, with the count updated. -/
theorem historyInv_step (i : Intent) (st : AppState) (k : Nat) (hb : i.bounded 5)
    (hinv : HistoryInv st k) : HistoryInv (i.apply st) (i.count k) := by
  obtain ⟨hlen, hnone⟩ := hinv
  cases i with
  | login creds outcome =>
    have h := handleLogin_history creds outcome st
    cases outcome with
    | ok l =>
      simp only [Intent.bounded] at hb
      simp only [HistoryInv, Intent.apply, Intent.count, AppState.historyLength, h.1, h.2]
      exact ⟨by omega, by simp⟩
    | error e =>
      simp only [HistoryInv, Intent.apply, Intent.count, AppState.historyLength, h.1, h.2]
      exact ⟨hlen, hnone⟩
  | refresh outcome =>
    have h := fetchHistory_history outcome st
    cases outcome with
    | ok l =>
      simp only [Intent.bounded] at hb
      cases hc : st.credentials with
      | none =>
        have h0 := hnone hc
        simp only [hc] at h
        simp only [HistoryInv, Intent.apply, Intent.count, AppState.historyLength, h.1, h.2]
        simp only [AppState.historyLength] at h0
        exact ⟨by omega, fun _ => h0⟩
      | some c =>
        simp only [hc] at h
        simp only [HistoryInv, Intent.apply, Intent.count, AppState.historyLength, h.1, h.2]
        exact ⟨by omega, by simp⟩
    | error e =>
      have h1 : (fetchHistory (asPayload (Except.error e)) st).history = st.history := by
        rw [h.2]
        split <;> simp_all
      simp only [HistoryInv, Intent.apply, Intent.count, AppState.historyLength, h.1, h1]
      exact ⟨hlen, hnone⟩
  | upload file res d =>
    have h := handleUpload_history file res d st
    cases hc : st.credentials with
    | none =>
      have h0 := hnone hc
      simp only [hc, Option.isNone_none, if_true] at h
      simp only [HistoryInv, Intent.apply, Intent.count, AppState.historyLength, h.1, h.2]
      simp only [AppState.historyLength] at h0
      exact ⟨by omega, fun _ => h0⟩
    | some c =>
      simp only [hc, Option.isNone_some, Bool.false_eq_true, if_false] at h
      simp only [HistoryInv, Intent.apply, Intent.count, AppState.historyLength, h.1, h.2]
      refine ⟨?_, by simp⟩
      simp only [AppState.historyLength] at hlen
      cases hh : st.history with
      | none => simp
      | some l =>
        simp only [hh] at hlen
        have := recordUpload_length_le res l
        simp only [Option.map_some']
        omega

/-- Every sequence of intents preserves the invariant. -/
theorem historyInv_run (steps : List Intent) :
    ∀ (st : AppState) (k : Nat), (∀ i ∈ steps, i.bounded 5) → HistoryInv st k →
      HistoryInv (steps.foldl (fun s i => i.apply s) st) (steps.foldl Intent.count k) := by
  induction steps with
  | nil => intro st k _ h; exact h
  | cons i rest ih =>
    intro st k hb h
    simp only [List.foldl_cons]
    exact ih _ _ (fun j hj => hb j (List.mem_cons_of_mem _ hj))
      (historyInv_step i st k (hb i (List.mem_cons_self _ _)) h)

/-- C9, counterexample. Every history response has at most 5 records, yet
after a login that returns 5 records and the upload of a sixth record the
history holds 6 records. -/
theorem history_exceeds_five_after_upload :
    (∀ i ∈ [Intent.login demoUser (Except.ok [sampleRecord 1, sampleRecord 2, sampleRecord 3,
              sampleRecord 4, sampleRecord 5]),
            Intent.upload "f6.csv" (sampleRecord 6) (Except.ok (some (sampleData 6)))],
        i.bounded 5) ∧
    (runIntents
      [Intent.login demoUser (Except.ok [sampleRecord 1, sampleRecord 2, sampleRecord 3,
          sampleRecord 4, sampleRecord 5]),
       Intent.upload "f6.csv" (sampleRecord 6) (Except.ok (some (sampleData 6)))]
      AppState.init).historyLength = 6 := by
  constructor
  · intro i hi
    simp only [List.mem_cons, List.mem_singleton, List.not_mem_nil, or_false] at hi
    rcases hi with rfl | rfl <;> simp [Intent.bounded]
  · rfl

/-- C9, amended. If every history response has at most 5 records, then in
every state reached from the initial one by login, refresh and upload
intents the history has at most 5 records plus one per upload made since
the last history response; in particular at most 5 directly after every
login or refresh whose request succeeded. -/
theorem history_bounded_up_to_uploads (steps : List Intent)
    (hb : ∀ i ∈ steps, i.bounded 5) :
    (runIntents steps AppState.init).historyLength ≤ 5 + uploadsSinceResponse steps ∧
    (∀ creds h, h.length ≤ 5 →
      (runIntents (steps ++ [Intent.login creds (Except.ok h)]) AppState.init).historyLength
        ≤ 5) ∧
    (∀ h, h.length ≤ 5 →
      (runIntents (steps ++ [Intent.refresh (Except.ok h)]) AppState.init).historyLength
        ≤ 5) := by
  have hinit : HistoryInv AppState.init 0 := ⟨by simp [AppState.historyLength, AppState.init],
    fun _ => rfl⟩
  have hmain := historyInv_run steps AppState.init 0 hb hinit
  refine ⟨hmain.1, ?_, ?_⟩
  · intro creds h hh
    have := historyInv_step (Intent.login creds (Except.ok h)) _ _ hh hmain
    simpa [runIntents, List.foldl_append, Intent.count] using this.1
  · intro h hh
    have := historyInv_step (Intent.refresh (Except.ok h)) _ _ hh hmain
    simpa [runIntents, List.foldl_append, Intent.count] using this.1

/-- Witness of C9 amended: a login with two records followed by an upload. -/
theorem history_bounded_up_to_uploads_witness :
    (runIntents
      [Intent.login demoUser (Except.ok [sampleRecord 1, sampleRecord 2]),
       Intent.upload "f3.csv" (sampleRecord 3) (Except.ok (some (sampleData 3)))]
      AppState.init).historyLength ≤ 5 + 1 :=
  (history_bounded_up_to_uploads
    [Intent.login demoUser (Except.ok [sampleRecord 1, sampleRecord 2]),
     Intent.upload "f3.csv" (sampleRecord 3) (Except.ok (some (sampleData 3)))]
    (by
      intro i hi
      simp only [List.mem_cons, List.mem_singleton, List.not_mem_nil, or_false] at hi
      rcases hi with rfl | rfl <;> simp [Intent.bounded])).1

/-! ## Theorems: authorization header -/

/-- The value of the digit of `n` is `n`. -/
theorem b64Value_digit (n : Nat) (h : n < 64) : b64Value (b64Digit n) = some n := by
  interval_cases n <;> rfl

/-- No base64 digit is the padding character. -/
theorem b64Digit_ne_pad (n : Nat) (h : n < 64) : b64Digit n ≠ '=' := by
  interval_cases n <;> decide

/-- A full group of four digits decodes to its three bytes. -/
theorem decodeGroup_three (a b c : Nat) (ha : a < 256) (hb : b < 256) (hc : c < 256)
    (last : Bool) :
    decodeGroup (b64Digit (a / 4)) (b64Digit (a % 4 * 16 + b / 16))
      (b64Digit (b % 16 * 4 + c / 64)) (b64Digit (c % 64)) last = some [a, b, c] := by
  have h1 : a / 4 < 64 := by omega
  have h2 : a % 4 * 16 + b / 16 < 64 := by omega
  have h3 : b % 16 * 4 + c / 64 < 64 := by omega
  have h4 : c % 64 < 64 := by omega
  simp only [decodeGroup, b64Value_digit _ h1, b64Value_digit _ h2, b64Value_digit _ h3,
    b64Value_digit _ h4, b64Digit_ne_pad _ h3, b64Digit_ne_pad _ h4, if_false]
  congr 1
  have e1 : a / 4 * 4 + (a % 4 * 16 + b / 16) / 16 = a := by omega
  have e2 : (a % 4 * 16 + b / 16) % 16 * 16 + (b % 16 * 4 + c / 64) / 4 = b := by omega
  have e3 : (b % 16 * 4 + c / 64) % 4 * 64 + c % 64 = c := by omega
  rw [e1, e2, e3]

/-- A last group with one padding character decodes to its two bytes. -/
theorem decodeGroup_two (a b : Nat) (ha : a < 256) (hb : b < 256) :
    decodeGroup (b64Digit (a / 4)) (b64Digit (a % 4 * 16 + b / 16))
      (b64Digit (b % 16 * 4)) '=' true = some [a, b] := by
  have h1 : a / 4 < 64 := by omega
  have h2 : a % 4 * 16 + b / 16 < 64 := by omega
  have h3 : b % 16 * 4 < 64 := by omega
  simp only [decodeGroup, b64Value_digit _ h1, b64Value_digit _ h2, b64Value_digit _ h3,
    b64Digit_ne_pad _ h3, if_false, if_true]
  congr 1
  have e1 : a / 4 * 4 + (a % 4 * 16 + b / 16) / 16 = a := by omega
  have e2 : (a % 4 * 16 + b / 16) % 16 * 16 + (b % 16 * 4) / 4 = b := by omega
  rw [e1, e2]

/-- A last group with two padding characters decodes to its byte. -/
theorem decodeGroup_one (a : Nat) (ha : a < 256) :
    decodeGroup (b64Digit (a / 4)) (b64Digit (a % 4 * 16)) '=' '=' true = some [a] := by
  have h1 : a / 4 < 64 := by omega
  have h2 : a % 4 * 16 < 64 := by omega
  simp only [decodeGroup, b64Value_digit _ h1, b64Value_digit _ h2, and_self, if_true]
  congr 1
  have e1 : a / 4 * 4 + (a % 4 * 16) / 16 = a := by omega
  rw [e1]

/-- Base64 decoding inverts base64 encoding on byte sequences. -/
theorem base64Decode_encode (bytes : List Nat) :
    (∀ x ∈ bytes, x < 256) → base64Decode (base64Encode bytes) = some bytes := by
  induction bytes using base64Encode.induct with
  | case1 => intro _; rfl
  | case2 a =>
    intro h
    have ha : a < 256 := h a (by simp)
    simp only [base64Encode, base64Decode, List.isEmpty_nil, decodeGroup_one a ha,
      List.append_nil]
  | case3 a b =>
    intro h
    have ha : a < 256 := h a (by simp)
    have hb : b < 256 := h b (by simp)
    simp only [base64Encode, base64Decode, List.isEmpty_nil, decodeGroup_two a b ha hb,
      List.append_nil]
  | case4 a b c rest ih =>
    intro h
    have ha : a < 256 := h a (by simp)
    have hb : b < 256 := h b (by simp)
    have hc : c < 256 := h c (by simp)
    have hr : ∀ x ∈ rest, x < 256 := fun x hx => h x (by simp [hx])
    simp only [base64Encode, base64Decode, decodeGroup_three a b c ha hb hc, ih hr,
      List.cons_append, List.nil_append]

/-- A code point is below `0x110000`. -/
theorem char_toNat_lt (c : Char) : c.toNat < 0x110000 := by
  have h := c.valid
  simp only [UInt32.isValidChar, Nat.isValidChar] at h
  show c.val.toNat < 0x110000
  omega

/-- The UTF-8 encoding of a character consists of bytes. -/
theorem utf8EncodeChar_lt (c : Char) : ∀ x ∈ utf8EncodeChar c, x < 256 := by
  have h := char_toNat_lt c
  intro x hx
  simp only [utf8EncodeChar] at hx
  split at hx
  · simp at hx; omega
  · split at hx
    · simp at hx; omega
    · split at hx
      · simp at hx; omega
      · simp at hx; omega

/-- The UTF-8 encoding of a string consists of bytes. -/
theorem utf8Bytes_lt (s : String) : ∀ x ∈ utf8Bytes s, x < 256 := by
  intro x hx
  simp only [utf8Bytes, List.mem_flatten, List.mem_map] at hx
  obtain ⟨l, ⟨c, _, rfl⟩, hxl⟩ := hx
  exact utf8EncodeChar_lt c x hxl

/-- Decoding one character inverts encoding one character. -/
theorem utf8DecodeChar_encodeChar (c : Char) (bs : List Nat) :
    utf8DecodeChar (utf8EncodeChar c ++ bs) = some (c, bs) := by
  have h := char_toNat_lt c
  have hc : Char.ofNat c.toNat = c := Char.ofNat_toNat c
  simp only [utf8EncodeChar]
  split
  · next h1 =>
    simp only [List.singleton_append, utf8DecodeChar, h1, if_true, hc]
  · split
    · next h1 h2 =>
      have e0 : ¬ (0xC0 + c.toNat / 64 < 0x80) := by omega
      have e1 : 0xC0 + c.toNat / 64 < 0xE0 := by omega
      have e2 : (0xC0 + c.toNat / 64 - 0xC0) * 64 + (0x80 + c.toNat % 64 - 0x80) = c.toNat := by
        omega
      simp only [List.cons_append, List.nil_append, utf8DecodeChar, e0, e1, if_false, if_true,
        e2, hc]
    · split
      · next h1 h2 h3 =>
        have e0 : ¬ (0xE0 + c.toNat / 4096 < 0x80) := by omega
        have e0' : ¬ (0xE0 + c.toNat / 4096 < 0xE0) := by omega
        have e1 : 0xE0 + c.toNat / 4096 < 0xF0 := by omega
        have e2 : (0xE0 + c.toNat / 4096 - 0xE0) * 4096 + (0x80 + c.toNat / 64 % 64 - 0x80) * 64
            + (0x80 + c.toNat % 64 - 0x80) = c.toNat := by omega
        simp only [List.cons_append, List.nil_append, utf8DecodeChar, e0, e0', e1, if_false,
          if_true, e2, hc]
      · next h1 h2 h3 =>
        have e0 : ¬ (0xF0 + c.toNat / 262144 < 0x80) := by omega
        have e0' : ¬ (0xF0 + c.toNat / 262144 < 0xE0) := by omega
        have e1 : ¬ (0xF0 + c.toNat / 262144 < 0xF0) := by omega
        have e2 : (0xF0 + c.toNat / 262144 - 0xF0) * 262144
            + (0x80 + c.toNat / 4096 % 64 - 0x80) * 4096
            + (0x80 + c.toNat / 64 % 64 - 0x80) * 64
            + (0x80 + c.toNat % 64 - 0x80) = c.toNat := by omega
        simp only [List.cons_append, List.nil_append, utf8DecodeChar, e0, e0', e1, if_false,
          e2, hc]

/-- The UTF-8 encoding of a character is not empty. -/
theorem utf8EncodeChar_ne_nil (c : Char) : ∃ b bs, utf8EncodeChar c = b :: bs := by
  simp only [utf8EncodeChar]
  split
  · exact ⟨_, _, rfl⟩
  · split
    · exact ⟨_, _, rfl⟩
    · split
      · exact ⟨_, _, rfl⟩
      · exact ⟨_, _, rfl⟩

/-- With one unit of fuel per character, decoding inverts encoding. -/
theorem utf8DecodeFuel_flatten (cs : List Char) :
    ∀ fuel, cs.length ≤ fuel →
      utf8DecodeFuel fuel (cs.map utf8EncodeChar).flatten = some cs := by
  induction cs with
  | nil =>
    intro fuel _
    cases fuel <;> rfl
  | cons c rest ih =>
    intro fuel hf
    obtain ⟨b, bs, hb⟩ := utf8EncodeChar_ne_nil c
    have hstep := utf8DecodeChar_encodeChar c (rest.map utf8EncodeChar).flatten
    cases fuel with
    | zero => simp at hf
    | succ n =>
      have hn : rest.length ≤ n := by simpa using hf
      simp only [List.map_cons, List.flatten_cons]
      rw [hb] at hstep ⊢
      rw [List.cons_append] at hstep ⊢
      simp only [utf8DecodeFuel, hstep, ih n hn, Option.map_some']

/-- An encoded string has at least as many bytes as characters. -/
theorem length_le_flatten (cs : List Char) :
    cs.length ≤ ((cs.map utf8EncodeChar).flatten).length := by
  induction cs with
  | nil => simp
  | cons c rest ih =>
    obtain ⟨b, bs, hb⟩ := utf8EncodeChar_ne_nil c
    simp only [List.map_cons, List.flatten_cons, List.length_append, List.length_cons, hb]
    omega

/-- UTF-8 decoding inverts UTF-8 encoding. -/
theorem utf8Decode_utf8Bytes (s : String) : utf8Decode (utf8Bytes s) = some s.toList :=
  utf8DecodeFuel_flatten s.toList _ (length_le_flatten s.toList)

/-- Source `b64` is reversible: `atob` followed by UTF-8 decoding recovers
the string. -/
theorem b64_reversible (s : String) :
    (atob (b64 s)).bind utf8DecodeString = some s := by
  show (base64Decode (base64Encode (utf8Bytes s))).bind utf8DecodeString = some s
  rw [base64Decode_encode _ (utf8Bytes_lt s)]
  simp only [Option.some_bind, utf8DecodeString, utf8Decode_utf8Bytes, Option.map_some',
    String.toList]


/-- Sample values of `b64`, for ASCII and for two-, three- and four-byte
characters. -/
theorem b64_examples :
    b64 "admin:admin" = "YWRtaW46YWRtaW4=" ∧ b64 "a:b" = "YTpi" ∧ b64 "ab:c" = "YWI6Yw==" ∧
    b64 "é€😀" = "w6nigqzwn5iA" := by
  decide

/-- C8, counterexample. Credentials that are present but whose username or
whose password is the empty string get no `Authorization` header. -/
theorem getAuthHeader_empty_field_no_header :
    getAuthHeader (some { username := "", password := "secret" }) = [] ∧
    getAuthHeader (some { username := "admin", password := "" }) = [] ∧
    getAuthHeader (some { username := "", password := "" }) = [] :=
  ⟨rfl, rfl, rfl⟩

/-- C8, amended. For credentials whose username and password are both
non-empty well-formed strings (no lone surrogate, which is what the type
`String` holds), `getAuthHeader` returns exactly the header
`Authorization` = `Basic ` followed by the base64 encoding of the UTF-8
bytes of `username:password`, and base64-decoding then UTF-8-decoding that
value recovers `username:password`. Among absent credentials and
credentials of well-formed strings, it returns no header exactly when the
credentials are absent or the username or the password is empty. -/
theorem getAuthHeader_basic (c : Credentials) (hu : c.username ≠ "") (hp : c.password ≠ "") :
    getAuthHeader (some c)
      = [("Authorization", "Basic " ++ b64 (c.username ++ ":" ++ c.password))] ∧
    b64 (c.username ++ ":" ++ c.password)
      = String.mk (base64Encode (utf8Bytes (c.username ++ ":" ++ c.password))) ∧
    (atob (b64 (c.username ++ ":" ++ c.password))).bind utf8DecodeString
      = some (c.username ++ ":" ++ c.password) ∧
    (∀ c2 : Option Credentials, getAuthHeader c2 = [] ↔
      (c2 = none ∨ ∃ d, c2 = some d ∧ (d.username = "" ∨ d.password = ""))) := by
  refine ⟨?_, rfl, b64_reversible _, ?_⟩
  · simp [getAuthHeader, hu, hp]
  · intro c2
    cases c2 with
    | none => simp [getAuthHeader]
    | some d =>
      by_cases h : d.username = "" ∨ d.password = ""
      · simp [getAuthHeader, h]
      · simp only [getAuthHeader, h, if_false, Option.some.injEq, exists_eq_left', or_false,
          reduceCtorEq, false_or]

/-- Witness of C8 amended on the demo credentials `admin` / `admin`. -/
theorem getAuthHeader_basic_witness :
    getAuthHeader (some demoUser) = [("Authorization", "Basic YWRtaW46YWRtaW4=")] :=
  (getAuthHeader_basic demoUser (by decide) (by decide)).1.trans (by decide)

end Visualizer
